import Mathlib

/-!
Verification of the jsonfile package (jsonfiledb.go): a generic store
JSONFileDB that holds a Go value and persists it to a JSON file through
New, Load, Read and Write.  The embedding below translates the source
functions into pure Lean functions.  Filesystem calls are modelled by an
explicit map from paths to file contents together with an outcome oracle
IOEnv describing which OS calls fail (and the fresh name CreateTemp
picks); the encoding/json collaborator is modelled by an abstract Codec
record, since the serialization format is external to the package.
-/

deriving instance DecidableEq for Except

namespace Jsonfile

/-- Base errors, mirroring the sentinel errors of the Go os package
(os.ErrNotExist, os.ErrExist, os.ErrPermission) plus free-form errors. -/
inductive GoErr where
  | errNotExist
  | errExist
  | errPermission
  | other (msg : String)
deriving DecidableEq

/-- Go error values as produced by the package: either a base error, or a
wrapped error built with fmt.Errorf from a context prefix and the %w verb. -/
inductive Error where
  | of (e : GoErr)
  | wrapf (ctx : String) (err : Error)
deriving DecidableEq

/-- The errors.Is check of the Go standard library, restricted to base
sentinel targets: it unwraps fmt.Errorf %w wrappers down to the base error. -/
def errorsIs : Error → GoErr → Bool
  | .of e, t => decide (e = t)
  | .wrapf _ e, t => errorsIs e t

/-- A filesystem: a map from paths to the contents of the file at that
path, or none when no file exists there. -/
abbrev FS := String → Option String

/-- Update the filesystem at one path (some c writes contents c, none
removes the file). -/
def FS.set (fs : FS) (p : String) (v : Option String) : FS :=
  fun q => if q = p then v else fs q

/-- The serialization collaborator: the encoding/json pair specialized to
the stored Go type.  zero models new(DB) (the zero value), marshal models
json.Marshal, and unmarshal models json.Unmarshal into a freshly
allocated zero value (the only way the package ever calls it). -/
structure Codec (Data : Type) where
  zero : Data
  marshal : Data → Except Error String
  unmarshal : String → Except Error Data

/-- Outcome oracle for one durable-write attempt: the fresh sibling name
picked by os.CreateTemp, and which of the OS calls CreateTemp, f.Write,
f.Close and os.Rename fail, each with its base error. -/
structure IOEnv where
  tempName : String
  tempErr : Option GoErr
  writeErr : Option GoErr
  closeErr : Option GoErr
  renameErr : Option GoErr

/-- The JSONFileDB struct: the backing path, the last committed bytes
(field data) and the current decoded value (field db).  The sync.RWMutex
only serializes access and has no effect on the sequential semantics
modelled here. -/
structure JSONFileDB (Data : Type) where
  path : String
  data : String
  db : Data
deriving DecidableEq

/-- The initial bytes []byte("\x7b\x7d") used by New. -/
abbrev emptyDoc : String := "\x7b\x7d"

/-- Context strings used by fmt.Errorf in the source. -/
abbrev ctxWriteTemp : String := "JSONFileDB.Write: temp"

/-- Context of the plain Write wrap. -/
abbrev ctxWrite : String := "JSONFileDB.Write"

/-- Context of the rename wrap. -/
abbrev ctxWriteRename : String := "JSONFileDB.Write: rename"

/-- Context of the New wrap. -/
abbrev ctxNew : String := "JSONFileDB.New"

/-- Context of the Load wrap. -/
abbrev ctxLoad : String := "JSONFileDB.Load"

/-- Message of the json decode error. -/
abbrev msgInvalidChar : String := "invalid character"

/-- Message of the domain error the rollback test mutator signals. -/
abbrev msgRollback : String := "rollback"

/-- The backing path used by the concrete stores. -/
abbrev dbPath : String := "db.json"

/-- Canonical encoding of true at the Val-bool type. -/
abbrev jTrue : String := "\x7b\"Val\":true\x7d"

/-- Canonical encoding of false at the Val-bool type. -/
abbrev jFalse : String := "\x7b\"Val\":false\x7d"

/-- A whitespace-bearing non-canonical encoding of true. -/
abbrev jSpacedTrue : String := "\x7b\"Val\": true \x7d"

/-- Bytes that decode under no codec here. -/
abbrev notJson : String := "not json"

/-- Contents of a freshly created (still empty) temp file. -/
abbrev emptyFile : String := ""

/-- The fresh sibling name CreateTemp picks in the concrete runs. -/
abbrev dbTmpName : String := "db.json.tmp1"

/-- Lines 91 to 104 of Write: os.CreateTemp in the directory of the
target, f.Write, f.Close, os.Rename onto the target.  CreateTemp creates
the sibling file empty; a successful f.Write fills it; a write failure is
wrapped with the plain prefix, and a close failure is reported only when
the write succeeded (err == nil in the source); rename atomically moves
the sibling onto the target.  Failed attempts leave the sibling file
behind, as the source does. -/
def writeFileSteps (env : IOEnv) (path : String) (data : String) (fs : FS) :
    Option Error × FS :=
  match env.tempErr with
  | some e => (some (.wrapf ctxWriteTemp (.of e)), fs)
  | none =>
    let fs1 := fs.set env.tempName (some emptyFile)
    match env.writeErr with
    | some e => (some (.wrapf ctxWrite (.of e)), fs1)
    | none =>
      let fs2 := fs1.set env.tempName (some data)
      match env.closeErr with
      | some e1 => (some (.wrapf ctxWrite (.of e1)), fs2)
      | none =>
        match env.renameErr with
        | some e => (some (.wrapf ctxWriteRename (.of e)), fs2)
        | none => (none, (fs2.set env.tempName none).set path (some data))

/-- The first failing OS call of a durable-write attempt, with the
context string the source attaches to it: temp creation is wrapped with
"JSONFileDB.Write: temp", write and close with "JSONFileDB.Write", rename
with "JSONFileDB.Write: rename"; a write failure takes precedence over a
simultaneous close failure. -/
def IOEnv.firstFailure (env : IOEnv) : Option (GoErr × String) :=
  match env.tempErr with
  | some e => some (e, ctxWriteTemp)
  | none =>
    match env.writeErr with
    | some e => some (e, ctxWrite)
    | none =>
      match env.closeErr with
      | some e => some (e, ctxWrite)
      | none =>
        match env.renameErr with
        | some e => some (e, ctxWriteRename)
        | none => none

/-- Lines 72 to 114 of the source: Write decodes the committed bytes into
a fresh copy, applies fn to the copy (the mutator may change the value
and may signal an error, which is returned verbatim), re-encodes, returns
early when the bytes are unchanged, otherwise performs the durable write
and commits the re-decoded value and the new bytes.  The result is the
returned error (if any) together with the store and filesystem after the
call. -/
def JSONFileDB.Write {Data : Type} (C : Codec Data) (env : IOEnv)
    (fn : Data → Data × Option Error) (p : JSONFileDB Data) (fs : FS) :
    Except Error Unit × JSONFileDB Data × FS :=
  match C.unmarshal p.data with
  | .error e => (.error (.wrapf ctxWrite e), p, fs)
  | .ok db =>
    match fn db with
    | (_, some e) => (.error e, p, fs)
    | (db1, none) =>
      match C.marshal db1 with
      | .error e => (.error (.wrapf ctxWrite e), p, fs)
      | .ok data =>
        if data = p.data then (.ok (), p, fs)
        else
          match writeFileSteps env p.path data fs with
          | (some e, fs1) => (.error e, p, fs1)
          | (none, fs1) =>
            match C.unmarshal data with
            | .error e => (.error (.wrapf ctxWrite e), p, fs1)
            | .ok db2 => (.ok (), { p with db := db2, data := data }, fs1)

/-- Lines 63 to 68 of the source: Read calls fn with the current value;
modelled as returning the value the visitor observes. -/
def JSONFileDB.Read {Data : Type} (p : JSONFileDB Data) : Data := p.db

/-- Lines 28 to 34 of the source: New builds the store with bytes
[]byte("\x7b\x7d") and a zero value, then runs Write with a no-op
mutator; a Write failure is wrapped with "JSONFileDB.New" and no store is
returned. -/
def New {Data : Type} (C : Codec Data) (env : IOEnv) (path : String)
    (fs : FS) : Except Error (JSONFileDB Data) × FS :=
  match JSONFileDB.Write C env (fun db => (db, none))
      { path := path, data := emptyDoc, db := C.zero } fs with
  | (.error e, _, fs1) => (.error (.wrapf ctxNew e), fs1)
  | (.ok _, p1, fs1) => (.ok p1, fs1)

/-- Lines 50 to 61 of the source: Load reads the file (os.ReadFile on a
missing path yields an error satisfying os.IsNotExist, modelled with the
base error errNotExist), decodes it into a fresh zero value, and keeps
both the decoded value and the raw file bytes; both failures are wrapped
with "JSONFileDB.Load". -/
def Load {Data : Type} (C : Codec Data) (path : String) (fs : FS) :
    Except Error (JSONFileDB Data) :=
  match fs path with
  | none => .error (.wrapf ctxLoad (.of .errNotExist))
  | some bytes =>
    match C.unmarshal bytes with
    | .error e => .error (.wrapf ctxLoad e)
    | .ok db => .ok { path := path, data := bytes, db := db }

/-- Stores reachable from New followed by any sequence of Write calls
(with arbitrary environments and mutators), together with the filesystem
at that point. -/
inductive ReachNW {Data : Type} (C : Codec Data) :
    JSONFileDB Data → FS → Prop where
  | new (env : IOEnv) (path : String) (fs : FS) (p : JSONFileDB Data)
      (fs1 : FS) (h : New C env path fs = (.ok p, fs1)) : ReachNW C p fs1
  | write (p : JSONFileDB Data) (fs : FS) (env : IOEnv)
      (fn : Data → Data × Option Error) (r : Except Error Unit)
      (p1 : JSONFileDB Data) (fs1 : FS) (hp : ReachNW C p fs)
      (h : JSONFileDB.Write C env fn p fs = (r, p1, fs1)) : ReachNW C p1 fs1

/-! Concrete instances used to evaluate the theorems.  Each codec is one
admissible instantiation of the external encoding/json collaborator at a
particular stored Go type, restricted to the byte strings that actually
arise. -/

/-- json.Marshal for the Go type struct with a single field Val bool. -/
def boolMarshal (b : Bool) : Except Error String :=
  .ok (if b then jTrue else jFalse)

/-- json.Unmarshal for struct with a single field Val bool: accepts the
empty document (leaving the zero value), the two canonical encodings, and
one whitespace variant (Go JSON decoding ignores whitespace); anything
else is an invalid character decode error. -/
def boolUnmarshal (s : String) : Except Error Bool :=
  if s = emptyDoc then .ok false
  else if s = jTrue then .ok true
  else if s = jFalse then .ok false
  else if s = jSpacedTrue then .ok true
  else .error (.of (.other msgInvalidChar))

/-- Codec for the Go type struct with a single field Val bool. -/
def CBool : Codec Bool := { zero := false, marshal := boolMarshal, unmarshal := boolUnmarshal }

/-- Codec for the empty Go struct: its only value marshals to the empty
document, exactly as json.Marshal of struct empty does. -/
def CUnit : Codec Unit :=
  { zero := ()
    marshal := fun _ => .ok emptyDoc
    unmarshal := fun s =>
      if s = emptyDoc then .ok ()
      else .error (.of (.other msgInvalidChar)) }

/-- Codec for a Go struct with an exported field Val bool and an
unexported field (the second component): json.Marshal drops the
unexported field and json.Unmarshal leaves it at its zero value, so the
encode/decode round trip loses it. -/
def CDrop : Codec (Bool × Bool) :=
  { zero := (false, false)
    marshal := fun x =>
      .ok (if x.1 then jTrue else jFalse)
    unmarshal := fun s =>
      if s = emptyDoc then .ok (false, false)
      else if s = jTrue then .ok (true, false)
      else if s = jFalse then .ok (false, false)
      else .error (.of (.other msgInvalidChar)) }

/-- An environment in which every OS call succeeds. -/
def envOK : IOEnv :=
  { tempName := dbTmpName, tempErr := none, writeErr := none
    closeErr := none, renameErr := none }

/-- An environment in which os.CreateTemp fails with a permission error
(the directory is unwritable). -/
def envTempFail : IOEnv :=
  { tempName := dbTmpName, tempErr := some .errPermission
    writeErr := none, closeErr := none, renameErr := none }

/-- An environment in which only f.Write on the temp file fails with a
permission error. -/
def envWriteFail : IOEnv :=
  { tempName := dbTmpName, tempErr := none
    writeErr := some .errPermission, closeErr := none, renameErr := none }

/-- An environment in which only f.Close on the temp file fails with the
same permission error. -/
def envCloseFail : IOEnv :=
  { tempName := dbTmpName, tempErr := none, writeErr := none
    closeErr := some .errPermission, renameErr := none }

/-- An environment in which os.Rename fails with an already-exists error,
as it does when the target path is an existing directory. -/
def envRenameFail : IOEnv :=
  { tempName := dbTmpName, tempErr := none, writeErr := none
    closeErr := none, renameErr := some .errExist }

/-- The empty filesystem. -/
def fsEmpty : FS := fun _ => none

/-- A filesystem holding one file whose contents are a non-canonical
(whitespace-bearing) encoding of the value true. -/
def fsSpaced : FS :=
  fun q => if q = dbPath then some jSpacedTrue else none

/-- A filesystem holding one file whose contents do not decode. -/
def fsBad : FS := fun q => if q = dbPath then some notJson else none

/-- The store Load returns on fsSpaced: it keeps the file bytes verbatim. -/
def pSpaced : JSONFileDB Bool :=
  { path := dbPath, data := jSpacedTrue, db := true }

/-- A store holding the committed canonical encoding of false. -/
def pFalse : JSONFileDB Bool :=
  { path := dbPath, data := jFalse, db := false }

/-- A filesystem agreeing with pFalse. -/
def fsFalse : FS :=
  fun q => if q = dbPath then some jFalse else none

/-- The store New returns for the empty-struct codec: the short circuit
fires, so the initial in-memory state is kept. -/
def pUnit : JSONFileDB Unit := { path := dbPath, data := "\x7b\x7d", db := () }

/-- A store for the unexported-field codec holding the empty document. -/
def pDrop : JSONFileDB (Bool × Bool) :=
  { path := dbPath, data := "\x7b\x7d", db := (false, false) }

/-- A filesystem agreeing with pDrop. -/
def fsDrop : FS := fun q => if q = dbPath then some emptyDoc else none

/-- The store New returns for the Val-bool codec starting from the empty
filesystem: the encoded zero value committed at the path. -/
def pNewB : JSONFileDB Bool :=
  { path := dbPath, data := jFalse, db := false }

/-- The filesystem New leaves behind in that run. -/
def fsNewB : FS := (New CBool envOK dbPath fsEmpty).2

/-- The filesystem after a subsequent Write that sets the value to true. -/
def fsTrueB : FS :=
  (JSONFileDB.Write CBool envOK (fun _ => (true, none)) pNewB fsNewB).2.2

/-- The store after that Write. -/
def pTrueB : JSONFileDB Bool :=
  { path := dbPath, data := jTrue, db := true }

/-! Helper lemmas about the concrete codecs. -/

/-- Decoding the empty document with the Val-bool codec yields the zero
value, as json.Unmarshal of the empty object into a zero struct does. -/
theorem CBool_unmarshal_empty : CBool.unmarshal emptyDoc = .ok CBool.zero := rfl

/-- The Val-bool codec is reversible: decoding any encoding recovers the
encoded value. -/
theorem CBool_reversible : ∀ (v : Bool) (b : String),
    CBool.marshal v = .ok b → CBool.unmarshal b = .ok v := by
  intro v b h
  cases v <;> injection h with h <;> subst h <;> rfl

/-- Decode failures of the Val-bool codec are never the not-exist error. -/
theorem CBool_decode_not_notExist : ∀ (b : String) (e : Error),
    CBool.unmarshal b = .error e → errorsIs e .errNotExist = false := by
  intro b e h
  simp only [CBool] at h
  unfold boolUnmarshal at h
  split_ifs at h
  all_goals injection h with h
  all_goals subst h
  rfl

/-- Decoding the empty document with the empty-struct codec yields its
only value. -/
theorem CUnit_unmarshal_empty : CUnit.unmarshal emptyDoc = .ok CUnit.zero := rfl

/-- The empty-struct codec is reversible. -/
theorem CUnit_reversible : ∀ (v : Unit) (b : String),
    CUnit.marshal v = .ok b → CUnit.unmarshal b = .ok v := by
  intro v b h
  injection h with h
  subst h
  rfl

/-- A successful run of the durable-write steps puts the new bytes at the
target path. -/
theorem writeFileSteps_ok {env : IOEnv} {path data : String} {fs fs2 : FS}
    (h : writeFileSteps env path data fs = (none, fs2)) : fs2 path = some data := by
  unfold writeFileSteps at h
  split at h
  · exact absurd h (by simp)
  · split at h
    · exact absurd h (by simp)
    · split at h
      · exact absurd h (by simp)
      · split at h
        · exact absurd h (by simp)
        · injection h with h1 h2
          subst h2
          simp [FS.set]

/-- A fully successful run of the durable-write steps: the sibling file
is created, filled, renamed away onto the target. -/
theorem writeFileSteps_allOk (env : IOEnv) (path data : String) (fs : FS)
    (ht : env.tempErr = none) (hw : env.writeErr = none)
    (hc : env.closeErr = none) (hr : env.renameErr = none) :
    writeFileSteps env path data fs =
      (none, (((fs.set env.tempName (some emptyFile)).set env.tempName
        (some data)).set env.tempName none).set path (some data)) := by
  unfold writeFileSteps
  rw [ht, hw, hc, hr]

/-- A run of the durable-write steps under a failing environment returns
the first failing step wrapped with the context the source attaches to
that step, and leaves the target path untouched whenever the fresh
sibling name differs from it. -/
theorem writeFileSteps_fail (env : IOEnv) (path data : String) (fs : FS)
    (e0 : GoErr) (ctx : String)
    (hfail : env.firstFailure = some (e0, ctx)) (htmp : env.tempName ≠ path) :
    ∃ fs2, writeFileSteps env path data fs = (some (.wrapf ctx (.of e0)), fs2) ∧
      fs2 path = fs path := by
  have hne : ¬ (path = env.tempName) := fun h => htmp h.symm
  have hset : ∀ (g : FS) (v : Option String), (g.set env.tempName v) path = g path := by
    intro g v
    simp [FS.set, hne]
  unfold IOEnv.firstFailure at hfail
  unfold writeFileSteps
  split at hfail
  case _ e heq =>
    injection hfail with hfail
    injection hfail with h1 h2
    subst h1 h2
    exact ⟨fs, rfl, rfl⟩
  case _ heq =>
    split at hfail
    case _ e heq2 =>
      injection hfail with hfail
      injection hfail with h1 h2
      subst h1 h2
      refine ⟨_, rfl, ?_⟩
      rw [hset]
    case _ heq2 =>
      split at hfail
      case _ e heq3 =>
        injection hfail with hfail
        injection hfail with h1 h2
        subst h1 h2
        refine ⟨_, rfl, ?_⟩
        rw [hset, hset]
      case _ heq3 =>
        split at hfail
        case _ e heq4 =>
          injection hfail with hfail
          injection hfail with h1 h2
          subst h1 h2
          refine ⟨_, rfl, ?_⟩
          rw [hset, hset]
        case _ heq4 =>
          exact absurd hfail (by simp)

/-- Case analysis on one Write call, read off from the source: either the
call short-circuited (success, marshalling the mutated copy reproduced
the committed bytes, nothing changed), or it committed (success, the new
bytes are the marshalled mutated copy, the new value is their re-decode,
the file at the target path holds them), or it failed (in-memory state
unchanged). -/
theorem write_cases {Data : Type} (C : Codec Data) (env : IOEnv)
    (fn : Data → Data × Option Error) (p : JSONFileDB Data) (fs : FS)
    (r : Except Error Unit) (p1 : JSONFileDB Data) (fs1 : FS)
    (h : JSONFileDB.Write C env fn p fs = (r, p1, fs1)) :
    (r = .ok () ∧ p1 = p ∧ fs1 = fs ∧ ∃ d, C.unmarshal p.data = .ok d ∧
      (fn d).2 = none ∧ C.marshal (fn d).1 = .ok p.data) ∨
    (r = .ok () ∧ ∃ d b, C.unmarshal p.data = .ok d ∧ (fn d).2 = none ∧
      C.marshal (fn d).1 = .ok b ∧ C.unmarshal b = .ok p1.db ∧
      p1.path = p.path ∧ p1.data = b ∧ fs1 p.path = some b) ∨
    ((∃ e, r = .error e) ∧ p1 = p) := by
  unfold JSONFileDB.Write at h
  split at h
  case _ e heq =>
    injection h with h1 h2
    injection h2 with h2 h3
    exact Or.inr (Or.inr ⟨⟨_, h1.symm⟩, h2.symm⟩)
  case _ d heq =>
    split at h
    case _ d2 e heq2 =>
      injection h with h1 h2
      injection h2 with h2 h3
      exact Or.inr (Or.inr ⟨⟨_, h1.symm⟩, h2.symm⟩)
    case _ d1 heq2 =>
      split at h
      case _ e heq3 =>
        injection h with h1 h2
        injection h2 with h2 h3
        exact Or.inr (Or.inr ⟨⟨_, h1.symm⟩, h2.symm⟩)
      case _ b heq3 =>
        split at h
        case isTrue hb =>
          injection h with h1 h2
          injection h2 with h2 h3
          refine Or.inl ⟨h1.symm, h2.symm, h3.symm, d, heq, ?_, ?_⟩
          · rw [heq2]
          · rw [heq2]
            simpa [hb] using heq3
        case isFalse hb =>
          split at h
          case _ e fs2 heqW =>
            injection h with h1 h2
            injection h2 with h2 h3
            exact Or.inr (Or.inr ⟨⟨_, h1.symm⟩, h2.symm⟩)
          case _ fs2 heqW =>
            split at h
            case _ e heq4 =>
              injection h with h1 h2
              injection h2 with h2 h3
              exact Or.inr (Or.inr ⟨⟨_, h1.symm⟩, h2.symm⟩)
            case _ db2 heq4 =>
              injection h with h1 h2
              injection h2 with h2 h3
              subst h2 h3
              refine Or.inr (Or.inl ⟨h1.symm, d, b, heq, ?_, ?_, ?_, rfl, rfl, ?_⟩)
              · rw [heq2]
              · rw [heq2]; exact heq3
              · exact heq4
              · exact writeFileSteps_ok heqW

/-! Claim theorems. -/

/-- C1: when the mutator signals an error on the decoded copy, Write
returns exactly that error (not wrapped, so the callers identity check on
the error succeeds), changes neither the filesystem nor the in-memory
store, and a subsequent Read observes the pre-call value. -/
theorem mutator_error_returns_verbatim_and_rolls_back {Data : Type}
    (C : Codec Data) (env : IOEnv) (fn : Data → Data × Option Error)
    (p : JSONFileDB Data) (fs : FS) (d d2 : Data) (e : Error)
    (hd : C.unmarshal p.data = .ok d)
    (hfn : fn d = (d2, some e)) :
    JSONFileDB.Write C env fn p fs = (.error e, p, fs) ∧
    (JSONFileDB.Write C env fn p fs).2.1.Read = p.Read := by
  have h : JSONFileDB.Write C env fn p fs = (.error e, p, fs) := by
    unfold JSONFileDB.Write
    simp only [hd, hfn]
  refine ⟨h, ?_⟩
  rw [h]

/-- C1 witness: a mutator that flips the stored value and then signals a
rollback error leaves the store and the file untouched. -/
theorem mutator_error_rollback_witness :
    JSONFileDB.Write CBool envOK
        (fun d => (!d, some (.of (.other msgRollback)))) pFalse fsFalse =
      (.error (.of (.other msgRollback)), pFalse, fsFalse) ∧
    (JSONFileDB.Write CBool envOK
        (fun d => (!d, some (.of (.other msgRollback)))) pFalse fsFalse).2.1.Read =
      pFalse.Read :=
  mutator_error_returns_verbatim_and_rolls_back CBool envOK
    (fun d => (!d, some (.of (.other msgRollback)))) pFalse fsFalse
    false true (.of (.other msgRollback)) rfl rfl

/-- C2 counterexample: the returned error does not identify which of the
four durable-write steps failed.  Two runs on the same store, one in
which only f.Write fails and one in which only f.Close fails (with the
same base error), return the identical error with the bare
JSONFileDB.Write context (source lines 95 to 101 wrap both with the
plain prefix), so the context cannot distinguish a write failure from a
close failure. -/
theorem write_close_failures_indistinguishable :
    (JSONFileDB.Write CBool envWriteFail (fun _ => (true, none)) pFalse fsFalse).1 =
      .error (.wrapf ctxWrite (.of .errPermission)) ∧
    (JSONFileDB.Write CBool envCloseFail (fun _ => (true, none)) pFalse fsFalse).1 =
      .error (.wrapf ctxWrite (.of .errPermission)) ∧
    envWriteFail.writeErr = some .errPermission ∧ envWriteFail.closeErr = none ∧
    envCloseFail.writeErr = none ∧ envCloseFail.closeErr = some .errPermission :=
  ⟨rfl, rfl, rfl, rfl, rfl, rfl⟩

/-- C2 (amended): when any step of the durable write fails, Write returns
the first failing base error wrapped with the context the source attaches
to that step (JSONFileDB.Write: temp for temp-file creation,
JSONFileDB.Write: rename for rename, and the bare JSONFileDB.Write for
both write and close, which are therefore not distinguishable from the
context alone), the in-memory value and bytes are unchanged, the target
file is unchanged, and the callers errors.Is check still finds the base
error through the wrap. -/
theorem io_failure_wrapped_and_state_preserved {Data : Type}
    (C : Codec Data) (env : IOEnv) (fn : Data → Data × Option Error)
    (p : JSONFileDB Data) (fs : FS) (d m : Data) (b : String)
    (e0 : GoErr) (ctx : String)
    (hd : C.unmarshal p.data = .ok d)
    (hfn : fn d = (m, none))
    (hm : C.marshal m = .ok b)
    (hne : b ≠ p.data)
    (htmp : env.tempName ≠ p.path)
    (hfail : env.firstFailure = some (e0, ctx)) :
    (JSONFileDB.Write C env fn p fs).1 = .error (.wrapf ctx (.of e0)) ∧
    (JSONFileDB.Write C env fn p fs).2.1 = p ∧
    (JSONFileDB.Write C env fn p fs).2.2 p.path = fs p.path ∧
    errorsIs (.wrapf ctx (.of e0)) e0 = true := by
  obtain ⟨fs2, hw, hfs⟩ := writeFileSteps_fail env p.path b fs e0 ctx hfail htmp
  have h : JSONFileDB.Write C env fn p fs = (.error (.wrapf ctx (.of e0)), p, fs2) := by
    unfold JSONFileDB.Write
    simp only [hd, hfn, hm, if_neg hne, hw]
  rw [h]
  refine ⟨rfl, rfl, hfs, ?_⟩
  simp [errorsIs]

/-- C2 witness: with an unwritable directory (CreateTemp fails with a
permission error, the scenario of TestFileError) a Write that flips the
value fails with the wrapped permission error and changes nothing. -/
theorem io_failure_witness :
    (JSONFileDB.Write CBool envTempFail (fun _ => (true, none)) pFalse fsFalse).1 =
      .error (.wrapf ctxWriteTemp (.of .errPermission)) ∧
    (JSONFileDB.Write CBool envTempFail (fun _ => (true, none)) pFalse fsFalse).2.1 =
      pFalse ∧
    (JSONFileDB.Write CBool envTempFail
        (fun _ => (true, none)) pFalse fsFalse).2.2 pFalse.path =
      fsFalse pFalse.path ∧
    errorsIs (.wrapf ctxWriteTemp (.of .errPermission)) .errPermission =
      true :=
  io_failure_wrapped_and_state_preserved CBool envTempFail (fun _ => (true, none))
    pFalse fsFalse false true jTrue .errPermission
    ctxWriteTemp rfl rfl rfl (by decide) (by decide) rfl

/-- C3 counterexample: Load keeps the file bytes verbatim, so loading a
file holding a non-canonical (whitespace-bearing) encoding yields a store
whose bytes are not the serialized form of its value, refuting the
invariant for stores reached through Load. -/
theorem load_breaks_marshal_invariant :
    Load CBool dbPath fsSpaced = .ok pSpaced ∧
    CBool.marshal pSpaced.db ≠ .ok pSpaced.data :=
  ⟨rfl, by decide⟩

/-- C3 (amended): for a reversible codec that decodes the empty document
to the zero value, every store reachable through New and any sequence of
Write calls satisfies the invariant that its bytes are the serialized
form of its value; Load is excluded, since it keeps possibly
non-canonical file bytes verbatim. -/
theorem reachNW_marshal_invariant {Data : Type} (C : Codec Data)
    (h0 : C.unmarshal emptyDoc = .ok C.zero)
    (h1 : ∀ (v : Data) (b : String), C.marshal v = .ok b → C.unmarshal b = .ok v)
    (p : JSONFileDB Data) (fs : FS) (hr : ReachNW C p fs) :
    C.marshal p.db = .ok p.data := by
  induction hr with
  | new env path fs0 p0 fs1 hnew =>
    unfold New at hnew
    split at hnew
    case _ e pX fsX heq => exact absurd hnew (by simp)
    case _ u p2 fsX heq =>
      injection hnew with hA hB
      injection hA with hA
      subst hA hB
      rcases write_cases C env _ _ fs0 _ _ _ heq with
        ⟨_, hpe, _, d, hd, _, hmar⟩ |
        ⟨_, d, b, hd, _, hmar, hdec, hpath, hdata, _⟩ | ⟨⟨e, habs⟩, _⟩
      · subst hpe
        have hd2 : C.unmarshal emptyDoc = .ok d := hd
        rw [h0] at hd2
        injection hd2 with hd2
        have hmar2 : C.marshal d = .ok emptyDoc := hmar
        show C.marshal C.zero = .ok emptyDoc
        rw [hd2]
        exact hmar2
      · have hmar2 : C.marshal d = .ok b := hmar
        have hrt := h1 d b hmar2
        rw [hdec] at hrt
        injection hrt with hrt
        rw [hdata, hrt]
        exact hmar2
      · exact absurd habs (by simp)
  | write p fs env fn r p1 fs1 hp h ih =>
    rcases write_cases C env fn p fs r p1 fs1 h with
      ⟨_, hpe, _, _⟩ | ⟨_, d, b, hd, _, hmar, hdec, hpath, hdata, _⟩ | ⟨_, hpe⟩
    · rw [hpe]; exact ih
    · have hrt := h1 _ _ hmar
      rw [hdec] at hrt
      injection hrt with hrt
      rw [hdata, hrt]
      exact hmar
    · rw [hpe]; exact ih

/-- C3 witness: the store produced by a concrete New run satisfies the
invariant. -/
theorem reachNW_marshal_invariant_witness :
    CBool.marshal pNewB.db = .ok pNewB.data :=
  reachNW_marshal_invariant CBool CBool_unmarshal_empty CBool_reversible
    pNewB fsNewB
    (ReachNW.new envOK dbPath fsEmpty pNewB fsNewB (by rfl))

/-- C4 counterexample: on a store loaded from a non-canonical file, a
mutator that changes nothing still causes Write to rewrite the backing
file (re-encoding canonicalizes the bytes), so a no-change mutator does
not imply that the file is left untouched. -/
theorem noop_write_rewrites_noncanonical_file :
    Load CBool dbPath fsSpaced = .ok pSpaced ∧
    (JSONFileDB.Write CBool envOK (fun d => (d, none)) pSpaced fsSpaced).1 = .ok () ∧
    (JSONFileDB.Write CBool envOK (fun d => (d, none)) pSpaced fsSpaced).2.2 dbPath ≠
      fsSpaced dbPath :=
  ⟨rfl, rfl, by decide⟩

/-- C4 (amended): whenever the re-encoded bytes are byte-for-byte equal
to the committed bytes (in particular for a no-change mutator on a store
whose bytes are canonical), Write succeeds and neither the store nor any
file of the filesystem changes. -/
theorem identical_bytes_short_circuit {Data : Type} (C : Codec Data) (env : IOEnv)
    (fn : Data → Data × Option Error) (p : JSONFileDB Data) (fs : FS) (d d1 : Data)
    (hd : C.unmarshal p.data = .ok d)
    (hfn : fn d = (d1, none))
    (hm : C.marshal d1 = .ok p.data) :
    JSONFileDB.Write C env fn p fs = (.ok (), p, fs) := by
  unfold JSONFileDB.Write
  simp [hd, hfn, hm]

/-- C4 witness: a no-op Write on a canonical store is the identity on the
store and the filesystem. -/
theorem identical_bytes_short_circuit_witness :
    JSONFileDB.Write CBool envOK (fun d => (d, none)) pFalse fsFalse =
      (.ok (), pFalse, fsFalse) :=
  identical_bytes_short_circuit CBool envOK (fun d => (d, none)) pFalse fsFalse
    false false rfl rfl rfl

/-- A successful New whose default-value encoding differs from the empty
document commits that encoding: the store holds the zero value with its
encoding as bytes and the file at the path holds the same bytes. -/
theorem new_committed {Data : Type} (C : Codec Data) (env : IOEnv) (path : String)
    (fs fs1 : FS) (p1 : JSONFileDB Data) (b0 : String)
    (h0 : C.unmarshal emptyDoc = .ok C.zero)
    (h1 : ∀ (v : Data) (b : String), C.marshal v = .ok b → C.unmarshal b = .ok v)
    (hz : C.marshal C.zero = .ok b0)
    (hb0 : b0 ≠ emptyDoc)
    (hnew : New C env path fs = (.ok p1, fs1)) :
    p1 = { path := path, data := b0, db := C.zero } ∧ fs1 path = some b0 := by
  unfold New at hnew
  split at hnew
  case _ e pX fsX heq => exact absurd hnew (by simp)
  case _ u p2 fsX heq =>
    injection hnew with hA hB
    injection hA with hA
    rw [← hA, ← hB]
    rcases write_cases C env _ _ fs _ _ _ heq with
      ⟨_, hpe, _, d, hd, _, hmar⟩ |
      ⟨_, d, b, hd, _, hmar, hdec, hpath, hdata, hfile⟩ | ⟨⟨e, habs⟩, _⟩
    · have hd2 : C.unmarshal emptyDoc = .ok d := hd
      rw [h0] at hd2
      injection hd2 with hd2
      have hmar2 : C.marshal d = .ok emptyDoc := hmar
      rw [← hd2, hz] at hmar2
      injection hmar2 with hmar2
      exact absurd hmar2 hb0
    · have hd2 : C.unmarshal emptyDoc = .ok d := hd
      rw [h0] at hd2
      injection hd2 with hd2
      have hmar2 : C.marshal d = .ok b := hmar
      rw [← hd2, hz] at hmar2
      injection hmar2 with hmar2
      subst hmar2
      have hrt := h1 C.zero b0 hz
      rw [hdec] at hrt
      injection hrt with hrt
      have hpath2 : p2.path = path := hpath
      have hfile2 : fsX path = some b0 := hfile
      refine ⟨?_, hfile2⟩
      rcases p2 with ⟨pp, pd, pdb⟩
      have e1 : pp = path := hpath2
      have e2 : pd = b0 := hdata
      have e3 : pdb = C.zero := hrt
      rw [e1, e2, e3]
    · exact absurd habs (by simp)

/-- C5 counterexample: for the empty Go struct (whose zero value encodes
to the empty document) New never writes a file, a successful Write
setting the state to the only value short-circuits, and loading the same
path afterwards fails with a not-found error instead of observing the
written value. -/
theorem roundtrip_fails_for_empty_struct :
    (New CUnit envOK dbPath fsEmpty).1 = .ok pUnit ∧
    (JSONFileDB.Write CUnit envOK (fun _ => ((), none)) pUnit
      (New CUnit envOK dbPath fsEmpty).2).1 = .ok () ∧
    Load CUnit dbPath
      (JSONFileDB.Write CUnit envOK (fun _ => ((), none)) pUnit
        (New CUnit envOK dbPath fsEmpty).2).2.2 =
      .error (.wrapf ctxLoad (.of .errNotExist)) :=
  ⟨rfl, rfl, rfl⟩

/-- C5 (amended): for a reversible codec that decodes the empty document
to the zero value and whose default-value encoding differs from the empty
document (so that New materializes the file), New followed by a
successful Write whose mutator sets the state to v followed by Load on
the same path yields a store whose Read observes exactly v. -/
theorem roundtrip_holds {Data : Type} (C : Codec Data)
    (env1 env2 : IOEnv) (path : String) (fs fs1 fs2 : FS)
    (p1 p2 : JSONFileDB Data) (v : Data) (b0 : String) (u : Unit)
    (h0 : C.unmarshal emptyDoc = .ok C.zero)
    (h1 : ∀ (w : Data) (b : String), C.marshal w = .ok b → C.unmarshal b = .ok w)
    (hz : C.marshal C.zero = .ok b0)
    (hb0 : b0 ≠ emptyDoc)
    (hnew : New C env1 path fs = (.ok p1, fs1))
    (hw : JSONFileDB.Write C env2 (fun _ => (v, none)) p1 fs1 = (.ok u, p2, fs2)) :
    ∃ p3, Load C path fs2 = .ok p3 ∧ p3.Read = v := by
  obtain ⟨hp1, hf1⟩ := new_committed C env1 path fs fs1 p1 b0 h0 h1 hz hb0 hnew
  subst hp1
  rcases write_cases C env2 _ _ fs1 _ _ _ hw with
    ⟨_, hpe, hfs, d, hd, _, hmar⟩ |
    ⟨_, d, b, hd, _, hmar, hdec, hpath, hdata, hfile⟩ | ⟨⟨e, habs⟩, _⟩
  · subst hfs
    have hmar2 : C.marshal v = .ok b0 := hmar
    have hu := h1 v b0 hmar2
    refine ⟨{ path := path, data := b0, db := v }, ?_, rfl⟩
    unfold Load
    simp only [hf1, hu]
  · have hmar2 : C.marshal v = .ok b := hmar
    have hu := h1 v b hmar2
    have hfile2 : fs2 path = some b := hfile
    refine ⟨{ path := path, data := b, db := v }, ?_, rfl⟩
    unfold Load
    simp only [hfile2, hu]
  · exact absurd habs (by simp)

/-- C5 witness: New, a Write setting the value to true, then Load on the
concrete Val-bool store observes true. -/
theorem roundtrip_holds_witness :
    ∃ p3, Load CBool dbPath fsTrueB = .ok p3 ∧ p3.Read = true :=
  roundtrip_holds CBool envOK envOK dbPath fsEmpty fsNewB fsTrueB
    pNewB pTrueB true jFalse ()
    CBool_unmarshal_empty CBool_reversible rfl (by decide) (by rfl) (by rfl)

/-- C7: Load on a missing path returns an error that the callers
os.IsNotExist check recognizes, and Load on an existing file whose
contents do not decode returns the decode error (wrapped), which the
not-exist check rejects, so the two failures are distinguishable; in both
cases only an error and no store is returned. -/
theorem load_error_classification {Data : Type} (C : Codec Data)
    (path : String) (fs : FS)
    (hdec : ∀ (b : String) (e : Error), C.unmarshal b = .error e →
      errorsIs e .errNotExist = false) :
    (fs path = none →
      Load C path fs = .error (.wrapf ctxLoad (.of .errNotExist)) ∧
      errorsIs (.wrapf ctxLoad (.of .errNotExist)) .errNotExist = true) ∧
    (∀ (b : String) (e : Error), fs path = some b → C.unmarshal b = .error e →
      Load C path fs = .error (.wrapf ctxLoad e) ∧
      errorsIs (.wrapf ctxLoad e) .errNotExist = false) := by
  constructor
  · intro hnone
    refine ⟨?_, rfl⟩
    unfold Load
    simp only [hnone]
  · intro b e hsome he
    constructor
    · unfold Load
      simp only [hsome, he]
    · simpa [errorsIs] using hdec b e he

/-- C7 witness: a missing file gives the wrapped not-exist error and a
file holding undecodable bytes gives the wrapped decode error, with the
not-exist check accepting exactly the former. -/
theorem load_error_classification_witness :
    (Load CBool dbPath fsEmpty =
        .error (.wrapf ctxLoad (.of .errNotExist)) ∧
      errorsIs (.wrapf ctxLoad (.of .errNotExist)) .errNotExist = true) ∧
    (Load CBool dbPath fsBad =
        .error (.wrapf ctxLoad (.of (.other msgInvalidChar))) ∧
      errorsIs (.wrapf ctxLoad (.of (.other msgInvalidChar)))
        .errNotExist = false) :=
  ⟨(load_error_classification CBool dbPath fsEmpty CBool_decode_not_notExist).1 rfl,
   (load_error_classification CBool dbPath fsBad CBool_decode_not_notExist).2
     notJson (.of (.other msgInvalidChar)) rfl rfl⟩

/-- C8 counterexample: for the empty Go struct the zero value encodes to
the empty document, the no-op Write inside New short-circuits, and a
successful New leaves no backing file at the path at all. -/
theorem new_creates_no_file_for_empty_struct :
    (New CUnit envOK dbPath fsEmpty).1 = .ok pUnit ∧
    (New CUnit envOK dbPath fsEmpty).2 dbPath = none :=
  ⟨rfl, rfl⟩

/-- C8 (amended): when the encoding of the default value differs from the
initial empty-document bytes, a successful New leaves the backing file
holding exactly that encoding and the store holding the default value
with those bytes. -/
theorem new_materializes_default_encoding {Data : Type} (C : Codec Data)
    (env : IOEnv) (path : String) (fs fs1 : FS) (p1 : JSONFileDB Data) (b0 : String)
    (h0 : C.unmarshal emptyDoc = .ok C.zero)
    (h1 : ∀ (v : Data) (b : String), C.marshal v = .ok b → C.unmarshal b = .ok v)
    (hz : C.marshal C.zero = .ok b0)
    (hb0 : b0 ≠ emptyDoc)
    (hnew : New C env path fs = (.ok p1, fs1)) :
    p1 = { path := path, data := b0, db := C.zero } ∧ fs1 path = some b0 :=
  new_committed C env path fs fs1 p1 b0 h0 h1 hz hb0 hnew

/-- C8 witness: the concrete New run for the Val-bool codec. -/
theorem new_materializes_default_encoding_witness :
    pNewB = { path := dbPath, data := jFalse, db := CBool.zero } ∧
    fsNewB dbPath = some jFalse :=
  new_materializes_default_encoding CBool envOK dbPath fsEmpty fsNewB pNewB
    jFalse CBool_unmarshal_empty CBool_reversible rfl
    (by decide) (by rfl)

/-- C9 counterexample: for the empty Go struct New performs no filesystem
operation at all, so even in an environment in which the rename onto the
target would fail with an already-exists error (the target path being a
directory), New succeeds and returns a store. -/
theorem new_succeeds_despite_failing_filesystem :
    (New CUnit envRenameFail dbPath fsEmpty).1 = .ok pUnit :=
  rfl

/-- C9 (amended): when the encoding of the default value differs from the
empty document (so that New reaches the durable-write step), a New whose
rename fails returns the filesystem error wrapped in the rename and New
contexts, the callers errors.Is check finds the base error, no store is
returned, and the target path is untouched. -/
theorem new_propagates_rename_failure {Data : Type} (C : Codec Data)
    (env : IOEnv) (path : String) (fs : FS) (b0 : String) (e : GoErr)
    (h0 : C.unmarshal emptyDoc = .ok C.zero)
    (hz : C.marshal C.zero = .ok b0)
    (hb0 : b0 ≠ emptyDoc)
    (ht : env.tempErr = none) (hwr : env.writeErr = none)
    (hc : env.closeErr = none) (hr : env.renameErr = some e)
    (htmp : env.tempName ≠ path) :
    (New C env path fs).1 =
      .error (.wrapf ctxNew (.wrapf ctxWriteRename (.of e))) ∧
    errorsIs (.wrapf ctxNew
      (.wrapf ctxWriteRename (.of e))) e = true ∧
    (New C env path fs).2 path = fs path := by
  have hfail : env.firstFailure = some (e, ctxWriteRename) := by
    unfold IOEnv.firstFailure
    rw [ht, hwr, hc, hr]
  obtain ⟨fs2, hwf, hfs⟩ :=
    writeFileSteps_fail env path b0 fs e ctxWriteRename hfail htmp
  have hW : JSONFileDB.Write C env (fun db => (db, none))
      { path := path, data := emptyDoc, db := C.zero } fs =
      (.error (.wrapf ctxWriteRename (.of e)),
        { path := path, data := emptyDoc, db := C.zero }, fs2) := by
    unfold JSONFileDB.Write
    simp only [h0, hz, if_neg hb0, hwf]
  refine ⟨?_, ?_, ?_⟩
  · unfold New
    rw [hW]
  · simp [errorsIs]
  · unfold New
    rw [hW]
    exact hfs

/-- C9 witness: the concrete Val-bool New in the rename-failing
environment. -/
theorem new_propagates_rename_failure_witness :
    (New CBool envRenameFail dbPath fsEmpty).1 =
      .error (.wrapf ctxNew
        (.wrapf ctxWriteRename (.of .errExist))) ∧
    errorsIs (.wrapf ctxNew
      (.wrapf ctxWriteRename (.of .errExist))) .errExist = true ∧
    (New CBool envRenameFail dbPath fsEmpty).2 dbPath = fsEmpty dbPath :=
  new_propagates_rename_failure CBool envRenameFail dbPath fsEmpty
    jFalse .errExist CBool_unmarshal_empty rfl (by decide)
    rfl rfl rfl rfl (by decide)

/-- C10: a successful non-short-circuited Write commits as the new
in-memory value the decode of the encode of the value m the mutator
produced, together with those bytes; the witness below exhibits a codec
(an unexported struct field) for which this committed value differs
from m itself. -/
theorem write_commits_decode_of_encode {Data : Type} (C : Codec Data)
    (env : IOEnv) (fn : Data → Data × Option Error) (p : JSONFileDB Data)
    (fs : FS) (d m m2 : Data) (b : String)
    (hd : C.unmarshal p.data = .ok d)
    (hfn : fn d = (m, none))
    (hm : C.marshal m = .ok b)
    (hne : b ≠ p.data)
    (ht : env.tempErr = none) (hwr : env.writeErr = none)
    (hc : env.closeErr = none) (hr : env.renameErr = none)
    (hu : C.unmarshal b = .ok m2) :
    (JSONFileDB.Write C env fn p fs).1 = .ok () ∧
    (JSONFileDB.Write C env fn p fs).2.1 = { path := p.path, data := b, db := m2 } := by
  have hsteps := writeFileSteps_allOk env p.path b fs ht hwr hc hr
  have h : JSONFileDB.Write C env fn p fs =
      (.ok (), { path := p.path, data := b, db := m2 },
        (((fs.set env.tempName (some emptyFile)).set env.tempName (some b)).set
          env.tempName none).set p.path (some b)) := by
    unfold JSONFileDB.Write
    simp only [hd, hfn, hm, if_neg hne, hsteps, hu]
  rw [h]
  exact ⟨rfl, rfl⟩

/-- C10 witness: with an unexported field set by the mutator, the
committed value is the round-tripped (true, false), not the mutator
result (true, true): the unexported component is silently dropped. -/
theorem write_commits_decode_of_encode_witness :
    ((JSONFileDB.Write CDrop envOK
        (fun _ => ((true, true), none)) pDrop fsDrop).1 = .ok () ∧
      (JSONFileDB.Write CDrop envOK
        (fun _ => ((true, true), none)) pDrop fsDrop).2.1 =
        { path := dbPath, data := jTrue,
          db := ((true : Bool), (false : Bool)) }) ∧
    ((true, false) : Bool × Bool) ≠ (true, true) :=
  ⟨write_commits_decode_of_encode CDrop envOK (fun _ => ((true, true), none))
      pDrop fsDrop (false, false) (true, true) (true, false) jTrue
      rfl rfl rfl (by decide) rfl rfl rfl rfl rfl,
   by decide⟩

end Jsonfile
